import Mathlib

/-!
Shallow embedding of the tool-observability core of the eino-examples react
agent demo: the context-keyed `ToolExecutionState` (tools package), the
`safeTool` error-downgrading wrapper, the two query tools' argument handling,
and the `LoggerCallback` lifecycle hooks (react.go).

Go `context.Context` is modelled as an association list of key/value pairs,
innermost binding first (`context.WithValue` prepends).  Pointer-typed
`*ToolExecutionState` values are modelled by references (`Nat`) into an
explicit heap, so that in-place mutation by the wrapper and later reads by
the `OnEnd` callback can be expressed.  Go errors are modelled as an optional
`GoError` carrying the message string; external collaborators (the JSON
decoder of the standard library, the fake backend service, JSON marshalling)
are parameters of the embedded functions, since the spec treats payloads as
opaque and those functions are not part of this repository.
-/

set_option autoImplicit false

namespace EinoExamples

/-- A Go `error` value: only its message (`e.Error()`) is observable here. -/
structure GoError where
  message : String
deriving DecidableEq, Repr

/-- `ToolExecutionState` from the tools package: a single mutable success flag. -/
structure ToolExecutionState where
  success : Bool
deriving DecidableEq, Repr

/-- The heap of allocated `*ToolExecutionState` objects, addressed by reference. -/
abbrev Heap := Nat → ToolExecutionState

/-- Write the state object at reference `r` (Go pointer assignment). -/
def updateHeap (heap : Heap) (r : Nat) (s : ToolExecutionState) : Heap :=
  fun r2 => if r2 = r then s else heap r2

/-- Keys of `context.WithValue` bindings: the private `toolStateKey` of the
tools package, or any other key used elsewhere in the process. -/
inductive CtxKey where
  | toolStateKey : CtxKey
  | otherKey : Nat → CtxKey
deriving DecidableEq, Repr

/-- Values stored in a context binding: either a `*ToolExecutionState`
(modelled by its heap reference) or a value of some other dynamic type, on
which the type assertion in `GetToolState` fails. -/
inductive CtxVal where
  | toolStatePtr : Nat → CtxVal
  | otherVal : Nat → CtxVal
deriving DecidableEq, Repr

/-- A Go `context.Context`: the chain of `WithValue` bindings, innermost
binding at the head of the list. -/
abbrev Ctx := List (CtxKey × CtxVal)

/-- `ctx.Value(k)`: walk the binding chain outward and return the first value
bound under `k`, or `nil` (`none`) when the lineage has no such binding. -/
def ctxValue (ctx : Ctx) (k : CtxKey) : Option CtxVal :=
  match ctx.find? (fun kv => decide (kv.1 = k)) with
  | none => none
  | some kv => some kv.2

/-- `GetToolState`: look up `toolStateKey`; return `nil` when no binding exists
or when the bound value fails the `*ToolExecutionState` type assertion.  The
result is an `Option`, never an error. -/
def GetToolState (ctx : Ctx) : Option Nat :=
  match ctxValue ctx CtxKey.toolStateKey with
  | none => none
  | some (CtxVal.toolStatePtr r) => some r
  | some (CtxVal.otherVal _) => none

/-- `SetToolState`: `context.WithValue(ctx, toolStateKey{}, state)` — returns a
derived context extending `ctx` with the new binding; `ctx` itself is unchanged. -/
def SetToolState (ctx : Ctx) (r : Nat) : Ctx :=
  (CtxKey.toolStateKey, CtxVal.toolStatePtr r) :: ctx

/-- `safeTool.InvokableRun`: run the wrapped tool; record `Success = (e == nil)`
into the context-bound state when one is present; downgrade a delegate error to
its message string with a nil error.  The delegate is the wrapped tool's
`InvokableRun`, a function of the context and the JSON arguments returning
`(out, err)`.  Result: `(payload, returned error, heap after the call)`. -/
def safeInvokableRun (delegate : Ctx → String → String × Option GoError)
    (ctx : Ctx) (heap : Heap) (args : String) : String × Option GoError × Heap :=
  let res := delegate ctx args
  let heap2 : Heap :=
    match GetToolState ctx with
    | none => heap
    | some r => updateHeap heap r { success := res.2.isNone }
  match res.2 with
  | some e => (e.message, none, heap2)
  | none => (res.1, none, heap2)

/-- C1: when the wrapped tool's invoke returns an error, `safeTool.InvokableRun`
returns the error's message as its payload and a nil error: a delegate failure
is never propagated as an error to the wrapper's caller. -/
theorem safeInvokableRun_delegate_failure
    (delegate : Ctx → String → String × Option GoError)
    (ctx : Ctx) (heap : Heap) (args : String) (out : String) (e : GoError)
    (h : delegate ctx args = (out, some e)) :
    (safeInvokableRun delegate ctx heap args).1 = e.message ∧
    (safeInvokableRun delegate ctx heap args).2.1 = none := by
  simp [safeInvokableRun, h]

/-- Witness for C1 at a concrete failing delegate. -/
theorem safeInvokableRun_delegate_failure_witness :
    (safeInvokableRun (fun _ _ => ("", some ⟨"boom"⟩))
      ([] : Ctx) (fun _ => ⟨false⟩) "args").1 = "boom" ∧
    (safeInvokableRun (fun _ _ => ("", some ⟨"boom"⟩))
      ([] : Ctx) (fun _ => ⟨false⟩) "args").2.1 = none :=
  safeInvokableRun_delegate_failure _ ([] : Ctx) (fun _ => ⟨false⟩) "args" "" ⟨"boom"⟩ rfl

/-- C2: after a `safeTool.InvokableRun` call, the bound state's success flag
equals `(delegate error == nil)`; when no state is bound on the context, the
call performs no state write (the heap is returned unchanged) and still
returns normally. -/
theorem safeInvokableRun_state
    (delegate : Ctx → String → String × Option GoError)
    (ctx : Ctx) (heap : Heap) (args : String) :
    (∀ r, GetToolState ctx = some r →
      ((safeInvokableRun delegate ctx heap args).2.2 r).success
        = (delegate ctx args).2.isNone) ∧
    (GetToolState ctx = none →
      (safeInvokableRun delegate ctx heap args).2.2 = heap) := by
  constructor
  · intro r hr
    simp only [safeInvokableRun, hr]
    cases h : (delegate ctx args).2 <;> simp [h, updateHeap]
  · intro hn
    simp only [safeInvokableRun, hn]
    cases h : (delegate ctx args).2 <;> simp [h]

/-- Witness for C2: a bound state records success of a succeeding delegate,
and an unbound context leaves the heap untouched. -/
theorem safeInvokableRun_state_witness :
    ((safeInvokableRun (fun _ _ => ("ok", none))
        (SetToolState ([] : Ctx) 0) (fun _ => ⟨false⟩) "").2.2 0).success = true ∧
    (safeInvokableRun (fun _ _ => ("ok", none))
        ([] : Ctx) (fun _ => ⟨false⟩) "").2.2 = (fun _ => ⟨false⟩) :=
  ⟨((safeInvokableRun_state (fun _ _ => ("ok", none))
      (SetToolState ([] : Ctx) 0) (fun _ => ⟨false⟩) "").1 0 rfl).trans rfl,
   (safeInvokableRun_state (fun _ _ => ("ok", none))
      ([] : Ctx) (fun _ => ⟨false⟩) "").2 rfl⟩

/-- C6: `GetToolState` yields `none` both on a context whose lineage never
bound the tool-state key and on a context whose innermost binding under the
key holds a value of the wrong dynamic type; its return type carries no error
and no default-valued state is manufactured. -/
theorem getToolState_absent (ctx : Ctx) :
    ((∀ kv ∈ ctx, kv.1 ≠ CtxKey.toolStateKey) → GetToolState ctx = none) ∧
    (∀ t, ctxValue ctx CtxKey.toolStateKey = some (CtxVal.otherVal t) →
      GetToolState ctx = none) := by
  constructor
  · intro hnone
    have hfind : ctx.find? (fun kv => decide (kv.1 = CtxKey.toolStateKey)) = none := by
      rw [List.find?_eq_none]
      intro kv hkv
      simpa using hnone kv hkv
    simp [GetToolState, ctxValue, hfind]
  · intro t ht
    simp [GetToolState, ht]

/-- Witness for C6: a context with only a foreign-key binding, and a context
whose tool-state binding holds a wrong-typed value, both look up to `none`. -/
theorem getToolState_absent_witness :
    GetToolState [(CtxKey.otherKey 7, CtxVal.otherVal 0)] = none ∧
    GetToolState [(CtxKey.toolStateKey, CtxVal.otherVal 3)] = none :=
  ⟨(getToolState_absent [(CtxKey.otherKey 7, CtxVal.otherVal 0)]).1 (by decide),
   (getToolState_absent [(CtxKey.toolStateKey, CtxVal.otherVal 3)]).2 3 rfl⟩

/-- C5: `SetToolState` returns a derived context on which lookup yields exactly
the bound state, while every other key still looks up as in the original
context (non-destructive extension); and for two separately allocated states
bound on separate scopes, an invocation that mutates B's state through
`safeTool.InvokableRun` leaves A's state object in the heap unchanged. -/
theorem setToolState_isolation (ctxA ctxB : Ctx) (rA rB : Nat) (heap : Heap)
    (delegateB : Ctx → String → String × Option GoError) (argsB : String)
    (hr : rA ≠ rB) :
    GetToolState (SetToolState ctxA rA) = some rA ∧
    (∀ k, k ≠ CtxKey.toolStateKey →
      ctxValue (SetToolState ctxA rA) k = ctxValue ctxA k) ∧
    ((safeInvokableRun delegateB (SetToolState ctxB rB) heap argsB).2.2) rA
      = heap rA := by
  refine ⟨rfl, ?_, ?_⟩
  · intro k hk
    simp [ctxValue, SetToolState, List.find?_cons, Ne.symm hk]
  · have hB : GetToolState (SetToolState ctxB rB) = some rB := rfl
    simp only [safeInvokableRun, hB]
    cases h : (delegateB (SetToolState ctxB rB) argsB).2 <;>
      simp [h, updateHeap, hr]

/-- Witness for C5 at two concrete scopes and states: state 0 bound on scope A
survives a failing invocation on scope B that writes state 1. -/
theorem setToolState_isolation_witness :
    GetToolState (SetToolState ([] : Ctx) 0) = some 0 ∧
    ctxValue (SetToolState ([] : Ctx) 0) (CtxKey.otherKey 4)
      = ctxValue ([] : Ctx) (CtxKey.otherKey 4) ∧
    ((safeInvokableRun (fun _ _ => ("", some ⟨"fail"⟩))
        (SetToolState ([] : Ctx) 1) (fun _ => ⟨true⟩) "").2.2) 0 = ⟨true⟩ :=
  ⟨(setToolState_isolation ([] : Ctx) ([] : Ctx) 0 1 (fun _ => ⟨true⟩)
      (fun _ _ => ("", some ⟨"fail"⟩)) "" (by decide)).1,
   (setToolState_isolation ([] : Ctx) ([] : Ctx) 0 1 (fun _ => ⟨true⟩)
      (fun _ _ => ("", some ⟨"fail"⟩)) "" (by decide)).2.1
     (CtxKey.otherKey 4) (by decide),
   (setToolState_isolation ([] : Ctx) ([] : Ctx) 0 1 (fun _ => ⟨true⟩)
      (fun _ _ => ("", some ⟨"fail"⟩)) "" (by decide)).2.2⟩

/-- `QueryRestaurantsParam` from the tools package; a `topn` field absent from
the argument JSON decodes to the Go zero value `0`. -/
structure QueryRestaurantsParam where
  location : String
  topn : Int
deriving DecidableEq, Repr

/-- `Restaurant`, the backend's result element for restaurant queries. -/
structure Restaurant where
  id : String
  name : String
  place : String
  desc : String
  score : Int
deriving DecidableEq, Repr

/-- `QueryDishesParam` from the tools package. -/
structure QueryDishesParam where
  restaurantID : String
  topn : Int
deriving DecidableEq, Repr

/-- `Dish`, the backend's result element for dish queries. -/
structure Dish where
  name : String
  desc : String
  price : Int
  score : Int
deriving DecidableEq, Repr

/-- The JSON text of the simulated transient failure injected by
`ToolQueryRestaurants.InvokableRun` (Go marshals map keys sorted). -/
def transientErrorJSON : String :=
  "\x7b\"error\":\"service temporarily unavailable\",\"message\":\"The restaurant service is temporarily unavailable. Please retry later.\",\"retry\":\"true\"\x7d"

/-- The tail of `ToolQueryRestaurants.InvokableRun` after parameter handling:
call the backend with the (defaulted) parameter, then marshal the result;
each failure is returned as `("", err)`. -/
def restBackendPhase (backend : Ctx → QueryRestaurantsParam → Except GoError (List Restaurant))
    (marshal : List Restaurant → Except GoError String)
    (ctx : Ctx) (p : QueryRestaurantsParam) : String × Option GoError :=
  match backend ctx p with
  | Except.error e => ("", some e)
  | Except.ok rests =>
    match marshal rests with
    | Except.error e => ("", some e)
    | Except.ok res => (res, none)

/-- `ToolQueryRestaurants.InvokableRun`: decode the arguments (a decode failure
is returned as a genuine error), default `topn` to 3 when it is 0, then either
fail with the simulated transient error (the wall-clock-seeded coin toss is
the `transientFail` parameter) or query the backend and marshal the result.
The JSON decoder, the backend and the marshaller are external collaborators
passed as parameters. -/
def toolQueryRestaurantsRun
    (unmarshal : String → Except GoError QueryRestaurantsParam)
    (transientFail : Bool)
    (backend : Ctx → QueryRestaurantsParam → Except GoError (List Restaurant))
    (marshal : List Restaurant → Except GoError String)
    (ctx : Ctx) (args : String) : String × Option GoError :=
  match unmarshal args with
  | Except.error e => ("", some e)
  | Except.ok p0 =>
    let p := if p0.topn = 0 then { p0 with topn := 3 } else p0
    if transientFail then ("", some ⟨transientErrorJSON⟩)
    else restBackendPhase backend marshal ctx p

/-- The tail of `ToolQueryDishes.InvokableRun` after parameter handling. -/
def dishesBackendPhase (backend : Ctx → QueryDishesParam → Except GoError (List Dish))
    (marshal : List Dish → Except GoError String)
    (ctx : Ctx) (p : QueryDishesParam) : String × Option GoError :=
  match backend ctx p with
  | Except.error e => ("", some e)
  | Except.ok dishes =>
    match marshal dishes with
    | Except.error e => ("", some e)
    | Except.ok res => (res, none)

/-- `ToolQueryDishes.InvokableRun`: decode the arguments, default `topn` to 5
when it is 0, then query the backend and marshal the result. -/
def toolQueryDishesRun
    (unmarshal : String → Except GoError QueryDishesParam)
    (backend : Ctx → QueryDishesParam → Except GoError (List Dish))
    (marshal : List Dish → Except GoError String)
    (ctx : Ctx) (args : String) : String × Option GoError :=
  match unmarshal args with
  | Except.error e => ("", some e)
  | Except.ok p0 =>
    let p := if p0.topn = 0 then { p0 with topn := 5 } else p0
    dishesBackendPhase backend marshal ctx p

/-- A concrete instance of the external JSON decoder evaluated at the spec
scenario's malformed input: it rejects the string `"\x7bnot json"` with the
decode error the Go decoder reports there, and accepts nothing else (only the
rejecting branch is exercised by the theorems using it). -/
def unmarshalRejecting : String → Except GoError QueryRestaurantsParam :=
  fun _ => Except.error ⟨"invalid character n looking for beginning of object key string"⟩

/-- A backend stub for closed evaluations; never reached on a decode failure. -/
def backendUnused : Ctx → QueryRestaurantsParam → Except GoError (List Restaurant) :=
  fun _ _ => Except.error ⟨"unused"⟩

/-- A marshaller stub for closed evaluations; never reached on a decode failure. -/
def marshalUnused : List Restaurant → Except GoError String :=
  fun _ => Except.error ⟨"unused"⟩

/-- Counterexample to C3: invoking the safe-wrapped restaurant tool on the
malformed argument string of the spec scenario returns a nil error to the
wrapper's caller — the decode failure is downgraded to payload text exactly
like an operational failure, not propagated as a genuine error. -/
theorem safeInvoke_decode_failure_counterexample :
    (safeInvokableRun
        (toolQueryRestaurantsRun unmarshalRejecting false backendUnused marshalUnused)
        (SetToolState ([] : Ctx) 0) (fun _ => ⟨false⟩) "\x7bnot json").2.1 = none ∧
    (safeInvokableRun
        (toolQueryRestaurantsRun unmarshalRejecting false backendUnused marshalUnused)
        (SetToolState ([] : Ctx) 0) (fun _ => ⟨false⟩) "\x7bnot json").1
      = "invalid character n looking for beginning of object key string" :=
  ⟨rfl, rfl⟩

/-- C3 as amended: on an argument string the decoder rejects, the wrapped tool
returns the decode error to `safeTool.InvokableRun`, which downgrades it like
any delegate failure: its caller receives the decode error message as payload
with a nil error, and the bound state's success flag is written to `false` —
the same value as its pre-bound default, so the state still shows the
default-valued outcome. -/
theorem safeInvoke_decode_failure
    (unmarshal : String → Except GoError QueryRestaurantsParam)
    (transientFail : Bool)
    (backend : Ctx → QueryRestaurantsParam → Except GoError (List Restaurant))
    (marshal : List Restaurant → Except GoError String)
    (ctx : Ctx) (heap : Heap) (args : String) (e : GoError) (r : Nat)
    (hdec : unmarshal args = Except.error e)
    (hr : GetToolState ctx = some r) :
    (safeInvokableRun (toolQueryRestaurantsRun unmarshal transientFail backend marshal)
        ctx heap args).1 = e.message ∧
    (safeInvokableRun (toolQueryRestaurantsRun unmarshal transientFail backend marshal)
        ctx heap args).2.1 = none ∧
    ((safeInvokableRun (toolQueryRestaurantsRun unmarshal transientFail backend marshal)
        ctx heap args).2.2) r = ⟨false⟩ := by
  have hdel : toolQueryRestaurantsRun unmarshal transientFail backend marshal ctx args
      = ("", some e) := by
    simp [toolQueryRestaurantsRun, hdec]
  refine ⟨?_, ?_, ?_⟩ <;> simp [safeInvokableRun, hdel, hr, updateHeap]

/-- Witness for the amended C3 at the concrete scenario input. -/
theorem safeInvoke_decode_failure_witness :
    (safeInvokableRun
        (toolQueryRestaurantsRun unmarshalRejecting false backendUnused marshalUnused)
        (SetToolState ([] : Ctx) 0) (fun _ => ⟨false⟩) "\x7bnot json").1
      = "invalid character n looking for beginning of object key string" ∧
    (safeInvokableRun
        (toolQueryRestaurantsRun unmarshalRejecting false backendUnused marshalUnused)
        (SetToolState ([] : Ctx) 0) (fun _ => ⟨false⟩) "\x7bnot json").2.1 = none ∧
    ((safeInvokableRun
        (toolQueryRestaurantsRun unmarshalRejecting false backendUnused marshalUnused)
        (SetToolState ([] : Ctx) 0) (fun _ => ⟨false⟩) "\x7bnot json").2.2) 0 = ⟨false⟩ :=
  safeInvoke_decode_failure unmarshalRejecting false backendUnused marshalUnused
    (SetToolState ([] : Ctx) 0) (fun _ => ⟨false⟩) "\x7bnot json"
    ⟨"invalid character n looking for beginning of object key string"⟩ 0 rfl rfl

/-- C10: once the arguments decode successfully, a `topn` of 0 (absent fields
decode to 0) is replaced by the default — 3 for the restaurant tool, 5 for the
dish tool — before the backend phase runs, and a non-zero `topn` is passed
through unchanged; the restaurant conjunct is stated on the non-transient-fail
path, since the injected transient failure skips the backend entirely. -/
theorem topn_defaulting
    (unmarshalR : String → Except GoError QueryRestaurantsParam)
    (backendR : Ctx → QueryRestaurantsParam → Except GoError (List Restaurant))
    (marshalR : List Restaurant → Except GoError String)
    (unmarshalD : String → Except GoError QueryDishesParam)
    (backendD : Ctx → QueryDishesParam → Except GoError (List Dish))
    (marshalD : List Dish → Except GoError String)
    (ctx : Ctx) (args : String) (p : QueryRestaurantsParam) (q : QueryDishesParam) :
    (unmarshalR args = Except.ok p →
      toolQueryRestaurantsRun unmarshalR false backendR marshalR ctx args
        = restBackendPhase backendR marshalR ctx
            (if p.topn = 0 then { p with topn := 3 } else p)) ∧
    (unmarshalD args = Except.ok q →
      toolQueryDishesRun unmarshalD backendD marshalD ctx args
        = dishesBackendPhase backendD marshalD ctx
            (if q.topn = 0 then { q with topn := 5 } else q)) := by
  constructor
  · intro h
    simp [toolQueryRestaurantsRun, h]
  · intro h
    simp [toolQueryDishesRun, h]

/-- Witness for C10: with `topn` absent (decoded as 0) the restaurant backend
phase runs at `topn = 3` and the dish backend phase at `topn = 5`; with
`topn = 2` the value passes through. -/
theorem topn_defaulting_witness :
    (toolQueryRestaurantsRun (fun _ => Except.ok ⟨"beijing", 0⟩) false
        backendUnused marshalUnused ([] : Ctx) "in"
      = restBackendPhase backendUnused marshalUnused ([] : Ctx) ⟨"beijing", 3⟩) ∧
    (toolQueryDishesRun (fun _ => Except.ok ⟨"r1", 0⟩)
        (fun _ _ => Except.error ⟨"unused"⟩) (fun _ => Except.error ⟨"unused"⟩)
        ([] : Ctx) "in"
      = dishesBackendPhase (fun _ _ => Except.error ⟨"unused"⟩)
          (fun _ => Except.error ⟨"unused"⟩) ([] : Ctx) ⟨"r1", 5⟩) ∧
    (toolQueryRestaurantsRun (fun _ => Except.ok ⟨"beijing", 2⟩) false
        backendUnused marshalUnused ([] : Ctx) "in"
      = restBackendPhase backendUnused marshalUnused ([] : Ctx) ⟨"beijing", 2⟩) :=
  ⟨(topn_defaulting (fun _ => Except.ok ⟨"beijing", 0⟩) backendUnused marshalUnused
      (fun _ => Except.ok ⟨"r1", 0⟩) (fun _ _ => Except.error ⟨"unused"⟩)
      (fun _ => Except.error ⟨"unused"⟩) ([] : Ctx) "in" ⟨"beijing", 0⟩ ⟨"r1", 0⟩).1 rfl,
   (topn_defaulting (fun _ => Except.ok ⟨"beijing", 0⟩) backendUnused marshalUnused
      (fun _ => Except.ok ⟨"r1", 0⟩) (fun _ _ => Except.error ⟨"unused"⟩)
      (fun _ => Except.error ⟨"unused"⟩) ([] : Ctx) "in" ⟨"beijing", 0⟩ ⟨"r1", 0⟩).2 rfl,
   (topn_defaulting (fun _ => Except.ok ⟨"beijing", 2⟩) backendUnused marshalUnused
      (fun _ => Except.ok ⟨"r1", 0⟩) (fun _ _ => Except.error ⟨"unused"⟩)
      (fun _ => Except.error ⟨"unused"⟩) ([] : Ctx) "in" ⟨"beijing", 2⟩ ⟨"r1", 0⟩).1 rfl⟩

/-- The eino component kinds the callbacks discriminate on. -/
inductive Component where
  | chatModel : Component
  | toolComponent : Component
  | otherComponent : String → Component
deriving DecidableEq, Repr

/-- `schema.Message`: only the content string matters to the drain loop. -/
structure Message where
  content : String
deriving DecidableEq, Repr

/-- `model.CallbackOutput`: its message pointer may be nil. -/
structure ModelCallbackOutput where
  message : Option Message
deriving DecidableEq, Repr

/-- A frame of the callback output stream: either a value
`model.ConvCallbackOutput` recognizes, or one of any other shape, on which
the conversion yields nil. -/
inductive StreamFrame where
  | modelCbOutput : ModelCallbackOutput → StreamFrame
  | unrecognized : Nat → StreamFrame
deriving DecidableEq, Repr

/-- `model.ConvCallbackOutput`: nil on an unrecognized frame shape. -/
def convCallbackOutput : StreamFrame → Option ModelCallbackOutput
  | StreamFrame.modelCbOutput o => some o
  | StreamFrame.unrecognized _ => none

/-- The observable effects of the stream-end handling: forwarding a content
string to the observer (the printed assistant line), logging a mid-stream
receive error, and closing the stream. -/
inductive DrainEvent where
  | forward : String → DrainEvent
  | logRecvErr : String → DrainEvent
  | closeStream : DrainEvent
deriving DecidableEq, Repr

/-- The body of one loop iteration of the drain goroutine on a received frame:
convert it, and when the conversion succeeds, the message is non-nil and its
content non-empty, forward the content; otherwise do nothing. -/
def frameEvents (f : StreamFrame) : List DrainEvent :=
  match convCallbackOutput f with
  | some o =>
    match o.message with
    | some m => if m.content = "" then [] else [DrainEvent.forward m.content]
    | none => []
  | none => []

/-- The drain goroutine of `LoggerCallback.OnEndWithStreamOutput`: receive
frames until the terminal signal; `io.EOF` breaks out of the loop, any other
receive error is logged and the goroutine returns; on every exit path the
deferred `output.Close()` runs.  A finite stream is the list of frames
delivered before the terminal signal, which is `none` for end-of-stream and
`some e` for a mid-stream receive error. -/
def drainLoop : List StreamFrame → Option GoError → List DrainEvent
  | [], none => [DrainEvent.closeStream]
  | [], some e => [DrainEvent.logRecvErr e.message, DrainEvent.closeStream]
  | f :: rest, term => frameEvents f ++ drainLoop rest term

/-- `LoggerCallback.OnEndWithStreamOutput`: only the chat-model component kind
runs the drain; every other kind closes the stream at once without receiving
a frame; the incoming context is returned unchanged in both cases. -/
def onEndWithStreamOutput (ctx : Ctx) (comp : Component)
    (frames : List StreamFrame) (term : Option GoError) : List DrainEvent × Ctx :=
  if comp = Component.chatModel then (drainLoop frames term, ctx)
  else ([DrainEvent.closeStream], ctx)

/-- The number of close operations in an effect trace. -/
def countClose : List DrainEvent → Nat
  | [] => 0
  | DrainEvent.closeStream :: rest => countClose rest + 1
  | _ :: rest => countClose rest

/-- The content a frame contributes when it is recognized as assistant content
with a non-empty content string (the spec's forwarding criterion). -/
def assistantContent (f : StreamFrame) : Option String :=
  match convCallbackOutput f with
  | some o =>
    match o.message with
    | some m => if m.content = "" then none else some m.content
    | none => none
  | none => none

/-- The contents forwarded to the observer, in trace order. -/
def forwardedContents (trace : List DrainEvent) : List String :=
  trace.filterMap (fun ev =>
    match ev with
    | DrainEvent.forward c => some c
    | _ => none)

theorem frameEvents_eq (f : StreamFrame) :
    frameEvents f = ((assistantContent f).map DrainEvent.forward).toList := by
  cases f with
  | modelCbOutput o =>
    cases h : o.message with
    | none => simp [frameEvents, assistantContent, convCallbackOutput, h]
    | some m =>
      by_cases hc : m.content = "" <;>
        simp [frameEvents, assistantContent, convCallbackOutput, h, hc]
  | unrecognized t => simp [frameEvents, assistantContent, convCallbackOutput]

theorem drainLoop_eq (frames : List StreamFrame) (term : Option GoError) :
    drainLoop frames term
      = (frames.filterMap assistantContent).map DrainEvent.forward
          ++ drainLoop [] term := by
  induction frames with
  | nil => simp
  | cons f rest ih =>
    rw [List.filterMap_cons]
    cases h : assistantContent f with
    | none =>
      have hf : frameEvents f = [] := by rw [frameEvents_eq, h]; rfl
      simp [drainLoop, hf, ih]
    | some c =>
      have hf : frameEvents f = [DrainEvent.forward c] := by rw [frameEvents_eq, h]; rfl
      simp [drainLoop, hf, ih]

theorem countClose_append (l1 l2 : List DrainEvent) :
    countClose (l1 ++ l2) = countClose l1 + countClose l2 := by
  induction l1 with
  | nil => simp [countClose]
  | cons ev rest ih =>
    cases ev with
    | forward c => simpa [countClose] using ih
    | logRecvErr m => simpa [countClose] using ih
    | closeStream =>
      simp only [List.cons_append, countClose]
      have happ : rest.append l2 = rest ++ l2 := rfl
      rw [happ, ih]
      omega

theorem countClose_forwards (cs : List String) :
    countClose (cs.map DrainEvent.forward) = 0 := by
  induction cs with
  | nil => rfl
  | cons c rest ih => simpa [countClose] using ih

/-- C4: every execution of the stream-end handling — for any component kind,
any finite frame prefix and any terminal signal (end-of-stream or mid-stream
receive error) — closes the underlying stream exactly once. -/
theorem stream_closed_exactly_once (ctx : Ctx) (comp : Component)
    (frames : List StreamFrame) (term : Option GoError) :
    countClose (onEndWithStreamOutput ctx comp frames term).1 = 1 := by
  by_cases hc : comp = Component.chatModel
  · rw [onEndWithStreamOutput, if_pos hc, drainLoop_eq, countClose_append,
      countClose_forwards]
    cases term <;> rfl
  · rw [onEndWithStreamOutput, if_neg hc]; rfl

/-- C7: the drain forwards to the observer exactly the contents of the frames
recognized as assistant content with non-empty content, in stream order,
silently skipping empty-content and unrecognized frames; in particular the
spec scenario stream A, empty, B followed by end-of-stream forwards exactly
A then B. -/
theorem drain_forwards_assistant_content :
    (∀ (frames : List StreamFrame) (term : Option GoError),
      forwardedContents (drainLoop frames term) = frames.filterMap assistantContent) ∧
    forwardedContents (drainLoop
        [StreamFrame.modelCbOutput ⟨some ⟨"A"⟩⟩,
         StreamFrame.modelCbOutput ⟨some ⟨""⟩⟩,
         StreamFrame.modelCbOutput ⟨some ⟨"B"⟩⟩] none) = ["A", "B"] := by
  have hgen : ∀ (frames : List StreamFrame) (term : Option GoError),
      forwardedContents (drainLoop frames term) = frames.filterMap assistantContent := by
    intro frames term
    rw [drainLoop_eq]
    have htail : forwardedContents (drainLoop [] term) = [] := by
      cases term <;> rfl
    have : ∀ cs : List String,
        forwardedContents (cs.map DrainEvent.forward ++ drainLoop [] term) = cs := by
      intro cs
      induction cs with
      | nil => simpa [forwardedContents] using htail
      | cons c rest ih => simpa [forwardedContents] using ih
    exact this _
  exact ⟨hgen, by rw [hgen]; rfl⟩

/-- C9: only the chat-model component kind drains the stream — every other
kind closes the sequence immediately, with no frame forwarded and no receive
performed; and on a chat-model stream ending in a mid-stream receive error,
the drain forwards the preceding contents, logs the error, closes the stream
and stops, returning the context unchanged — the error is never propagated
to the handler's caller. -/
theorem drain_only_chat_model (ctx : Ctx) (comp : Component)
    (frames : List StreamFrame) (term : Option GoError) (e : GoError) :
    (comp ≠ Component.chatModel →
      onEndWithStreamOutput ctx comp frames term = ([DrainEvent.closeStream], ctx)) ∧
    onEndWithStreamOutput ctx Component.chatModel frames (some e)
      = ((frames.filterMap assistantContent).map DrainEvent.forward
          ++ [DrainEvent.logRecvErr e.message, DrainEvent.closeStream], ctx) := by
  constructor
  · intro hc
    rw [onEndWithStreamOutput, if_neg hc]
  · rw [onEndWithStreamOutput, if_pos rfl, drainLoop_eq]
    rfl

/-- Witness for C9: the tool component kind only closes the stream, and a
chat-model stream with one content frame and a receive error forwards the
content, logs and closes. -/
theorem drain_only_chat_model_witness :
    onEndWithStreamOutput ([] : Ctx) Component.toolComponent
        [StreamFrame.modelCbOutput ⟨some ⟨"A"⟩⟩] none
      = ([DrainEvent.closeStream], ([] : Ctx)) ∧
    onEndWithStreamOutput ([] : Ctx) Component.chatModel
        [StreamFrame.modelCbOutput ⟨some ⟨"A"⟩⟩] (some ⟨"broken pipe"⟩)
      = ([DrainEvent.forward "A", DrainEvent.logRecvErr "broken pipe",
          DrainEvent.closeStream], ([] : Ctx)) :=
  ⟨(drain_only_chat_model ([] : Ctx) Component.toolComponent
      [StreamFrame.modelCbOutput ⟨some ⟨"A"⟩⟩] none ⟨"broken pipe"⟩).1 (by decide),
   (drain_only_chat_model ([] : Ctx) Component.toolComponent
      [StreamFrame.modelCbOutput ⟨some ⟨"A"⟩⟩] none ⟨"broken pipe"⟩).2⟩

/-- `tool.CallbackOutput`: the response string the callback logs. -/
structure ToolCallbackOutput where
  response : String
deriving DecidableEq, Repr

/-- The log lines `LoggerCallback.OnEnd` can emit: the (possibly truncated)
tool result, and the outcome line for a succeeded or failed execution. -/
inductive LogEvent where
  | toolResult : String → String → LogEvent
  | execSucceeded : String → LogEvent
  | execFailed : String → LogEvent
deriving DecidableEq, Repr

/-- `LoggerCallback.OnEnd`: for the tool component kind with a convertible
output, log the (200-character-truncated) response, then, when a tool state
is bound on the context, log succeeded or failed according to its flag; when
no state is bound, or for any other component kind or output shape, emit no
outcome line; the context is always returned unchanged. -/
def loggerOnEnd (ctx : Ctx) (heap : Heap) (comp : Component) (name : String)
    (output : Option ToolCallbackOutput) : List LogEvent × Ctx :=
  if comp = Component.toolComponent then
    match output with
    | some tco =>
      let responseStr :=
        if tco.response.length > 200 then tco.response.take 200 ++ "..." else tco.response
      (LogEvent.toolResult name responseStr ::
        (match GetToolState ctx with
         | some r =>
           if (heap r).success then [LogEvent.execSucceeded name]
           else [LogEvent.execFailed name]
         | none => []), ctx)
    | none => ([], ctx)
  else ([], ctx)

/-- C8: on a tool-component `OnEnd` with a convertible output, an absent bound
state yields no outcome line at all — neither succeeded nor failed, the call
completing normally with the context unchanged (indeterminate, not a crash);
a bound state yields the succeeded line exactly when its success flag is true
and the failed line exactly when it is false. -/
theorem onEnd_outcome (ctx : Ctx) (heap : Heap) (name : String)
    (tco : ToolCallbackOutput) :
    (GetToolState ctx = none →
      LogEvent.execSucceeded name ∉
        (loggerOnEnd ctx heap Component.toolComponent name (some tco)).1 ∧
      LogEvent.execFailed name ∉
        (loggerOnEnd ctx heap Component.toolComponent name (some tco)).1) ∧
    (∀ r, GetToolState ctx = some r →
      (LogEvent.execSucceeded name ∈
          (loggerOnEnd ctx heap Component.toolComponent name (some tco)).1
        ↔ (heap r).success = true) ∧
      (LogEvent.execFailed name ∈
          (loggerOnEnd ctx heap Component.toolComponent name (some tco)).1
        ↔ (heap r).success = false)) ∧
    (loggerOnEnd ctx heap Component.toolComponent name (some tco)).2 = ctx := by
  refine ⟨?_, ?_, ?_⟩
  · intro hn
    simp [loggerOnEnd, hn]
  · intro r hr
    by_cases hs : (heap r).success <;> simp [loggerOnEnd, hr, hs]
  · simp [loggerOnEnd]

/-- Witness for C8: with no bound state no outcome line is emitted, and with a
bound succeeded state the succeeded line is emitted. -/
theorem onEnd_outcome_witness :
    (LogEvent.execSucceeded "query_restaurants" ∉
        (loggerOnEnd ([] : Ctx) (fun _ => ⟨false⟩) Component.toolComponent
          "query_restaurants" (some ⟨"res"⟩)).1 ∧
      LogEvent.execFailed "query_restaurants" ∉
        (loggerOnEnd ([] : Ctx) (fun _ => ⟨false⟩) Component.toolComponent
          "query_restaurants" (some ⟨"res"⟩)).1) ∧
    LogEvent.execSucceeded "query_restaurants" ∈
      (loggerOnEnd (SetToolState ([] : Ctx) 0) (fun _ => ⟨true⟩)
        Component.toolComponent "query_restaurants" (some ⟨"res"⟩)).1 :=
  ⟨(onEnd_outcome ([] : Ctx) (fun _ => ⟨false⟩) "query_restaurants" ⟨"res"⟩).1 rfl,
   (((onEnd_outcome (SetToolState ([] : Ctx) 0) (fun _ => ⟨true⟩)
      "query_restaurants" ⟨"res"⟩).2.1 0 rfl).1).mpr rfl⟩

end EinoExamples
